import Mathlib

/-!
Verification development for the LIFE_WITH_AI stock analytics pipeline.

The Python source is shallowly embedded: pandas DataFrames become a `Table`
of dated rows over exact rationals (IEEE floats are modelled as exact `Rat`
values; the special float values needed by the RSI computation are modelled
by the `PF` surrogate with explicit infinities and NaN), exceptions become
`Except`, and the network provider is an explicit oracle argument giving the
outcome of each download attempt.
-/

namespace LifeWithAI

/-- A pandas DataFrame with a date index, as used throughout the pipeline:
`tz` records whether the index carries timezone information, `cols` the
column names in order, and each row pairs its date (an ordinal day number)
with one rational cell value per column. -/
structure Table where
  tz : Bool
  cols : List String
  rows : List (Int × List Rat)
deriving DecidableEq, Repr

/-- The dates of a table's index, in row order. -/
def Table.dates (t : Table) : List Int := t.rows.map Prod.fst

/-- The required OHLCV column names, in the order the source lists them
(`required_columns = ['Open', 'High', 'Low', 'Close', 'Volume']`). -/
def requiredColumns : List String := ["Open", "High", "Low", "Close", "Volume"]

/-- ASCII lower-casing of a character, as Python's `str.lower` acts on the
ASCII column names used here. -/
def charLower (c : Char) : Char :=
  if 65 ≤ c.toNat ∧ c.toNat ≤ 90 then Char.ofNat (c.toNat + 32) else c

/-- Python's `col.lower()` on ASCII column names. -/
def pyLower (s : String) : String := String.mk (s.data.map charLower)

/-- Column selection and lower-casing shared by every fetch variant:
`data = data[[col for col in required_columns if col in data.columns]]`
followed by `data.columns = [col.lower() for col in data.columns]`.
Each kept row value is read off at the column's position in the original
header. -/
def selectLower (t : Table) : Table :=
  let kept := requiredColumns.filter (fun c => decide (c ∈ t.cols))
  { tz := t.tz
    cols := kept.map pyLower
    rows := t.rows.map (fun r => (r.1, kept.map (fun c => r.2.getD (t.cols.indexOf c) 0))) }

/-- Boolean monotonicity test of the date index, mirroring pandas
`data.index.is_monotonic_increasing` (non-decreasing). -/
def isMonotonicIncreasing : List Int → Bool
  | [] => true
  | [_] => true
  | a :: b :: rest => decide (a ≤ b) && isMonotonicIncreasing (b :: rest)

/-- Drop all but the first occurrence of each date, mirroring
`data[~data.index.duplicated(keep='first')]`; `seen` is the set of dates
already encountered earlier in the table. -/
def dedupFirstAux (seen : List Int) : List (Int × List Rat) → List (Int × List Rat)
  | [] => []
  | r :: rest =>
      if r.1 ∈ seen then dedupFirstAux seen rest
      else r :: dedupFirstAux (r.1 :: seen) rest

/-- Keep the first row for each date. -/
def dedupFirst (rows : List (Int × List Rat)) : List (Int × List Rat) :=
  dedupFirstAux [] rows

/-- The normalization block of `fetch_yfinance_data` in `utils/yfetch.py`
(lines 69-88): sort the index when it is not monotonic, drop duplicate
dates keeping the first, strip the timezone, then restrict to the required
columns and lower-case the header. The multi-level-header collapse is not
modelled: `Table.cols` is already a flat header. -/
def normalizeY (t : Table) : Table :=
  let t1 := if isMonotonicIncreasing t.dates then t
            else { t with rows := t.rows.insertionSort (fun a b => a.1 ≤ b.1) }
  let t2 := { t1 with rows := dedupFirst t1.rows }
  let t3 := { t2 with tz := false }
  selectLower t3

/-- The uploaded-file path `load_file_data` in `utils/data_loader.py`.
The CSV/spreadsheet parse is modelled as the already-parsed table `t`
(its index is date-valued by construction of `Table`, so the
`is_datetime64_any_dtype` check always passes in the model). The function
only validates: it requires the five OHLCV columns case-insensitively and
a non-empty table, and returns the table UNCHANGED. -/
def load_file_data (t : Table) : Except String Table :=
  if ¬ ∀ c ∈ ["open", "high", "low", "close", "volume"],
        c ∈ t.cols.map pyLower then
    .error "File must contain columns: Open, High, Low, Close, Volume"
  else if t.rows.isEmpty then
    .error "Uploaded file contains no data"
  else
    .ok t

/-- Outcome of one call to the market-data provider (`ticker.history` /
`yf.download`): either a raised exception with its message, or a returned
table (possibly empty). -/
inductive FetchOutcome where
  | raises (msg : String)
  | returns (t : Table)
deriving DecidableEq, Repr

/-- The distinct `ValueError` messages `load_yfinance_data` can construct,
with the data each message interpolates. `afterRetries` is the final
"Failed to load data ... after {retries} attempts: {inner}" wrapper, which
carries the last inner error's text. -/
inductive LoadError where
  | invalidStartEnd
  | futureEnd
  | invalidPeriod (period : String)
  | noData (symbol period : String)
  | network (msg : String)
  | afterRetries (symbol period : String) (retries : Nat) (inner : LoadError)
  | loopExhausted (symbol period : String) (retries : Nat)
deriving DecidableEq, Repr

/-- The period tokens accepted by `load_yfinance_data`'s `period_map`. -/
def loaderPeriodKeys : List String :=
  ["1D", "5D", "15D", "30D", "1M", "3M", "6M", "YTD", "1Y", "2Y", "3Y", "5Y", "MAX"]

/-- The empty-data branch of `load_yfinance_data` (lines 43-61). The code
fetches the symbol's maximal history inside an inner `try`; when that
history is non-empty it raises an informative `ValueError` carrying the
available date range — but that raise sits INSIDE the same `try`, so its
own `except Exception` catches and merely logs it. Every branch therefore
falls through to the generic "No data found" error, which carries only the
symbol and period. -/
def emptyDataError (symbol period : String) (maxOutcome : FetchOutcome) : LoadError :=
  match maxOutcome with
  | .raises _ => LoadError.noData symbol period
  | .returns maxData =>
      if maxData.rows.isEmpty then LoadError.noData symbol period
      else
        -- the informative range-carrying ValueError raised here is caught
        -- by the surrounding except and logged; the range is discarded
        LoadError.noData symbol period

/-- The body of one attempt of `load_yfinance_data`: Custom-date
validation, period validation, the provider call, the empty-data branch,
and on success the column selection and lower-casing. Dates are ordinal
day numbers; `now` stands for `datetime.now()`. All raises inside the
loop body become `Except.error`, which the retry loop catches. -/
def loadStep (symbol period : String) (start_date end_date now : Int)
    (oracle : Nat → FetchOutcome) (maxOutcome : FetchOutcome)
    (attempt : Nat) : Except LoadError Table :=
  let handle : FetchOutcome → Except LoadError Table := fun o =>
    match o with
    | .raises m => .error (LoadError.network m)
    | .returns d =>
        if d.rows.isEmpty then .error (emptyDataError symbol period maxOutcome)
        else .ok (selectLower d)
  if period = "Custom" then
    if end_date ≤ start_date then .error LoadError.invalidStartEnd
    else if now < end_date then .error LoadError.futureEnd
    else handle (oracle attempt)
  else if period = "YTD" then handle (oracle attempt)
  else if period ∈ loaderPeriodKeys then handle (oracle attempt)
  else .error (LoadError.invalidPeriod period)

/-- The retry loop `for attempt in range(1, retries + 1)` of
`load_yfinance_data`, applied to the explicit list of attempt numbers.
The result pairs the list of backoff sleeps performed (each
`delay * 2 ^ (attempt - 1)`) with the final outcome; on the last attempt
the caught error is re-raised wrapped in `afterRetries`, and falling off
the loop hits the unreachable final raise (`loopExhausted`). -/
def loadLoop (step : Nat → Except LoadError Table) (symbol period : String)
    (retries delay : Nat) : List Nat → List Nat × Except LoadError Table
  | [] => ([], .error (LoadError.loopExhausted symbol period retries))
  | attempt :: rest =>
      match step attempt with
      | .ok t => ([], .ok t)
      | .error e =>
          if attempt = retries then
            ([], .error (LoadError.afterRetries symbol period retries e))
          else
            let r := loadLoop step symbol period retries delay rest
            (delay * 2 ^ (attempt - 1) :: r.1, r.2)

/-- `load_yfinance_data` from `utils/data_loader.py`: the retry loop over
attempts `1 .. retries` with exponential backoff, with the provider
modelled by `oracle` (per-attempt outcome) and `maxOutcome` (outcome of the
`period="max"` probe in the empty-data branch). Returns the sleeps
performed together with the final table or error. -/
def load_yfinance_data (symbol period : String) (start_date end_date now : Int)
    (oracle : Nat → FetchOutcome) (maxOutcome : FetchOutcome)
    (retries delay : Nat) : List Nat × Except LoadError Table :=
  loadLoop (loadStep symbol period start_date end_date now oracle maxOutcome)
    symbol period retries delay (List.range' 1 retries)

/-- An empty `pd.DataFrame()`. -/
def emptyDF : Table := { tz := false, cols := [], rows := [] }

/-- Periods for which `fetch_yfinance_data` in `utils/yfetch.py` skips the
1-year fallback (`if period not in ["1D", "1d", "1M", "1mo", "real-time"]`). -/
def yfetchShortPeriods : List String := ["1D", "1d", "1M", "1mo", "real-time"]

/-- The body of one attempt of `fetch_yfinance_data` in `utils/yfetch.py`:
the main download, then on empty data the fallback ladder (1y unless the
period is short, then 1mo), then either the silent empty-DataFrame return
(after `st.error`) or the normalization block. Exceptions anywhere in the
body (including inside a fallback download) escape to the retry handler. -/
def yfetchAttempt (period : String) (main fb1y fb1mo : FetchOutcome) :
    Except String Table :=
  match main with
  | .raises m => .error m
  | .returns d =>
    if d.rows.isEmpty then
      match (if period ∈ yfetchShortPeriods then FetchOutcome.returns d else fb1y) with
      | .raises m => .error m
      | .returns d1 =>
        match (if d1.rows.isEmpty then fb1mo else .returns d1) with
        | .raises m => .error m
        | .returns d2 =>
          if d2.rows.isEmpty then
            -- st.error(...) is shown and an empty DataFrame is returned, unnormalized
            .ok emptyDF
          else .ok (normalizeY d2)
    else .ok (normalizeY d)

/-- The retry loop of `fetch_yfinance_data` in `utils/yfetch.py`. Unlike
the loader, exhaustion never raises: on the last attempt's failure the
code shows `st.error` and returns `pd.DataFrame()`, and falling off the
loop also returns `pd.DataFrame()`. -/
def yfetchLoop (step : Nat → Except String Table) (retries delay : Nat) :
    List Nat → List Nat × Table
  | [] => ([], emptyDF)
  | attempt :: rest =>
      match step attempt with
      | .ok t => ([], t)
      | .error _ =>
          if attempt = retries then ([], emptyDF)
          else
            let r := yfetchLoop step retries delay rest
            (delay * 2 ^ (attempt - 1) :: r.1, r.2)

/-- `fetch_yfinance_data` from `utils/yfetch.py`: retry loop over attempts
`1 .. retries` (defaults `retries=5`, `delay=3`), each attempt taking the
per-attempt outcomes of the main download and of the two fallback
downloads from the oracles. Returns the sleeps performed and the final
table — an empty table both when every source is empty and when every
attempt raised. -/
def fetch_yfinance_data (period : String)
    (main fb1y fb1mo : Nat → FetchOutcome)
    (retries delay : Nat) : List Nat × Table :=
  yfetchLoop (fun a => yfetchAttempt period (main a) (fb1y a) (fb1mo a))
    retries delay (List.range' 1 retries)

/-- A row of the canonical OHLCV series consumed by the analytics. -/
structure OhlcvRow where
  «open» : Rat
  high : Rat
  low : Rat
  close : Rat
  volume : Rat
deriving DecidableEq, Repr

/-- Mean of a series, `xs.mean()` (pandas yields NaN on an empty series;
the model yields `0/0 = 0` there — no claim evaluates that case). -/
def listMean (xs : List Rat) : Rat := xs.sum / xs.length

/-- Sample variance with `ddof = 1`, the square of pandas `xs.std()`:
for `n ≤ 1` the float std is NaN, modelled as 0 (both make every
`|z| > 2` comparison false). -/
def sampleVar (xs : List Rat) : Rat :=
  if xs.length ≤ 1 then 0
  else (xs.map (fun x => (x - listMean xs) ^ 2)).sum / (xs.length - 1 : Nat)

/-- Round-half-to-even to an integer, the rounding used by numpy/pandas
`round` (floats modelled as exact rationals). -/
def roundHalfEven (x : Rat) : Int :=
  let n := ⌊x⌋
  let f := x - n
  if f < 1 / 2 then n
  else if 1 / 2 < f then n + 1
  else if n % 2 = 0 then n else n + 1

/-- `x.round(2)`: round to 2 decimal places, half to even. -/
def round2 (x : Rat) : Rat := (roundHalfEven (x * 100) : Rat) / 100

/-- The comparison `((xs - xs.mean()) / xs.std()).abs() > 2` at value `x`:
pandas computes the z-score against the sample standard deviation `√v`
and tests `|z| > 2`; for `v > 0` that is equivalent to `(x - μ)² > 4·v`,
and for `v = 0` (or `n ≤ 1`, where the float std is NaN) the float
z-score is NaN, whose `> 2` comparison is false. -/
def absZGtTwo (xs : List Rat) (x : Rat) : Bool :=
  decide (0 < sampleVar xs ∧ 4 * sampleVar xs < (x - listMean xs) ^ 2)

/-- A row of `calculate_pl`'s output: the OHLCV columns plus
`'P/L Value'`, `'% P/L'` and `'Anomaly Flag'`. The two real-valued
z-score columns are intermediates of the flag; the flag itself is
computed through `absZGtTwo`. -/
structure PLRow where
  «open» : Rat
  high : Rat
  low : Rat
  close : Rat
  pl_value : Rat
  pl_pct : Rat
  volume : Rat
  anomaly : Bool
deriving DecidableEq, Repr

/-- The `% P/L` column of `calculate_pl` as a series. -/
def plPctSeries (rows : List OhlcvRow) : List Rat :=
  rows.map fun r => round2 ((r.close - r.«open») / r.«open» * 100)

/-- The `volume` column as a series. -/
def volumeSeries (rows : List OhlcvRow) : List Rat :=
  rows.map fun r => r.volume

/-- `calculate_pl` from `utils/calculations.py`: per-row
`P/L Value = close - open`, `% P/L = round((close-open)/open*100, 2)`,
and the anomaly flag `|z_pl| > 2 or |z_volume| > 2` with z-scores taken
over the whole series. Rational division by zero yields 0 where the
float computation would yield ±inf (claims about `% P/L` assume
`open ≠ 0`). -/
def calculate_pl (rows : List OhlcvRow) : List PLRow :=
  let plpcts := plPctSeries rows
  let vols := volumeSeries rows
  rows.map (fun r =>
    { «open» := r.«open», high := r.high, low := r.low, close := r.close
      pl_value := r.close - r.«open»
      pl_pct := round2 ((r.close - r.«open») / r.«open» * 100)
      volume := r.volume
      anomaly := absZGtTwo plpcts (round2 ((r.close - r.«open») / r.«open» * 100))
                 || absZGtTwo vols r.volume })

/-- Trailing rolling mean with window `w` and the default
`min_periods = w`, as in `series.rolling(window=w).mean()`: `none` (NaN)
while the window is not yet full, otherwise the mean of the last `w`
values. -/
def rollingMean (w : Nat) (xs : List Rat) : List (Option Rat) :=
  (List.range xs.length).map fun i =>
    if i + 1 < w then none
    else some (((xs.take (i + 1)).drop (i + 1 - w)).sum / (w : Rat))

/-- The gain series `delta.where(delta > 0, 0)` where
`delta = close.diff()`: row 0's delta is NaN, `NaN > 0` is false, so row 0
becomes 0; later rows keep a positive difference and send the rest to 0. -/
def gainsOf (closes : List Rat) : List Rat :=
  (List.range closes.length).map fun i =>
    match i with
    | 0 => 0
    | j + 1 =>
        let d := closes.getD (j + 1) 0 - closes.getD j 0
        if 0 < d then d else 0

/-- The loss series `(-delta).where(delta < 0, 0)`: row 0 is 0 (NaN
comparison false), later rows are `-(negative difference)` or 0. -/
def lossesOf (closes : List Rat) : List Rat :=
  (List.range closes.length).map fun i =>
    match i with
    | 0 => 0
    | j + 1 =>
        let d := closes.getD (j + 1) 0 - closes.getD j 0
        if d < 0 then -d else 0

/-- A pandas float surrogate for the RSI computation, where division by a
zero average loss produces an infinity or NaN. -/
inductive PF where
  | num (q : Rat)
  | posInf
  | negInf
  | nan
deriving DecidableEq, Repr

/-- The element-wise division `rs = gain / loss` on rolling means: a NaN
operand (window not yet full) gives NaN; division by zero follows float
semantics (`g/0 = +inf` for `g > 0`, `-inf` for `g < 0`, NaN for `0/0`). -/
def rsAt (gain loss : Option Rat) : PF :=
  match gain, loss with
  | some g, some l =>
      if l ≠ 0 then PF.num (g / l)
      else if 0 < g then PF.posInf
      else if g < 0 then PF.negInf
      else PF.nan
  | _, _ => PF.nan

/-- The element-wise `RSI = 100 - 100 / (1 + rs)` in float semantics:
`rs = +inf` gives `100 - 100/inf = 100`; `rs = -inf` gives
`100 - 100/(-inf) = 100`; a finite `rs = -1` gives `100 - 100/0 = -inf`;
NaN propagates. -/
def rsiVal : PF → PF
  | PF.num r => if 1 + r ≠ 0 then PF.num (100 - 100 / (1 + r)) else PF.negInf
  | PF.posInf => PF.num 100
  | PF.negInf => PF.num 100
  | PF.nan => PF.nan

/-- The `RSI_14` column of `calculate_indicators`: 14-sample rolling means
of the gain and loss series, their quotient, and the RSI formula. -/
def rsiList (closes : List Rat) : List PF :=
  (List.range closes.length).map fun i =>
    rsiVal (rsAt ((rollingMean 14 (gainsOf closes)).getD i none)
                 ((rollingMean 14 (lossesOf closes)).getD i none))

/-- Exponential smoothing step for `ewm(span, adjust=False).mean()`:
`y_i = (1 - α)·y_{i-1} + α·x_i`. -/
def emaAux (a prev : Rat) : List Rat → List Rat
  | [] => []
  | x :: xs =>
      let y := (1 - a) * prev + a * x
      y :: emaAux a y xs

/-- `series.ewm(span=s, adjust=False).mean()`: decay `α = 2/(s+1)`,
seeded from the first value. -/
def ewmMean (span : Nat) : List Rat → List Rat
  | [] => []
  | x :: xs => x :: emaAux (2 / (span + 1 : Nat)) x xs

/-- The output columns of `calculate_indicators` in
`utils/utils_indicators.py` (the OHLCV columns pass through unchanged and
are kept alongside by the caller). -/
structure IndicatorSet where
  sma20 : List (Option Rat)
  rsi14 : List PF
  macd : List Rat
  macd_signal : List Rat
deriving DecidableEq, Repr

/-- `calculate_indicators` from `utils/utils_indicators.py`, as a function
of the close series: `SMA_20` is the 20-sample rolling mean, `RSI_14` the
simple-rolling-mean RSI, `MACD = ema12 - ema26` and `MACD_Signal` its
9-span EMA. -/
def calculate_indicators (closes : List Rat) : IndicatorSet :=
  let macd := List.zipWith (· - ·) (ewmMean 12 closes) (ewmMean 26 closes)
  { sma20 := rollingMean 20 closes
    rsi14 := rsiList closes
    macd := macd
    macd_signal := ewmMean 9 macd }

/-- A trading signal label. -/
inductive Signal where
  | Buy
  | Sell
  | Hold
deriving DecidableEq, Repr

/-- The mean-reversion column of `apply_strategies`: starts at `'Hold'`,
sets `'Buy'` where `close < SMA_20 * 0.95`, then sets `'Sell'` where
`close > SMA_20 * 1.05` — the later assignment overwrites, so the Sell
condition wins when both hold. A NaN SMA (window not full) makes both
comparisons false, leaving `'Hold'`. Float literals 0.95 and 1.05 are
modelled as the exact rationals they denote decimally. -/
def meanRevSignal (close : Rat) (sma : Option Rat) : Signal :=
  match sma with
  | none => Signal.Hold
  | some s =>
      if s * (105 / 100) < close then Signal.Sell
      else if close < s * (95 / 100) then Signal.Buy
      else Signal.Hold

/-- Float comparison `x < q` on the RSI surrogate (NaN compares false). -/
def pfLt (x : PF) (q : Rat) : Bool :=
  match x with
  | PF.num r => decide (r < q)
  | PF.posInf => false
  | PF.negInf => true
  | PF.nan => false

/-- Float comparison `x > q` on the RSI surrogate (NaN compares false). -/
def pfGt (x : PF) (q : Rat) : Bool :=
  match x with
  | PF.num r => decide (q < r)
  | PF.posInf => true
  | PF.negInf => false
  | PF.nan => false

/-- The momentum column of `apply_strategies`: `'Buy'` where
`RSI_14 < 30`, then `'Sell'` where `RSI_14 > 70` overwrites; NaN RSI
leaves `'Hold'`. -/
def momentumSignal (rsi : PF) : Signal :=
  if pfGt rsi 70 then Signal.Sell
  else if pfLt rsi 30 then Signal.Buy
  else Signal.Hold

/-- The two signal columns added per row by `apply_strategies`. -/
structure StratRow where
  mean_reversion_signal : Signal
  momentum_signal : Signal
deriving DecidableEq, Repr

/-- `apply_strategies` from `utils/utils_strategies.py`, as a function of
the close series and the Indicator Set aligned with it. -/
def apply_strategies (closes : List Rat) (ind : IndicatorSet) : List StratRow :=
  (List.range closes.length).map fun i =>
    { mean_reversion_signal := meanRevSignal (closes.getD i 0) (ind.sma20.getD i none)
      momentum_signal := momentumSignal (ind.rsi14.getD i PF.nan) }

/-- The error outcomes relevant to the Forecast Engine:
`forecastUnavailable` is the typed error the spec names (no code path in
`utils/utils_predictions.py` constructs it), `rawException` a collaborator
exception propagating uncaught out of `predict_prices`. -/
inductive PredError where
  | forecastUnavailable (msg : String)
  | rawException (msg : String)
deriving DecidableEq, Repr

/-- Discriminator: is this the spec's typed `ForecastUnavailable`? -/
def PredError.isUnavailable : PredError → Bool
  | .forecastUnavailable _ => true
  | .rawException _ => false

/-- One row of Prophet's forecast frame
(`ds, yhat, yhat_lower, yhat_upper`). -/
structure ForecastRow where
  ds : Int
  yhat : Rat
  yhat_lower : Rat
  yhat_upper : Rat
deriving DecidableEq, Repr

/-- `predict_prices` from `utils/utils_predictions.py`, with the Prophet
collaborator modelled as a black-box `collab` that either fits and returns
the full history-plus-future forecast frame or raises. The source wraps
nothing in try/except: a collaborator exception propagates raw. On
success the frame is sliced to the trailing `horizon` rows
(`forecast.tail(horizon)`). -/
def predict_prices (closes : List (Int × Rat)) (horizon : Nat)
    (collab : List (Int × Rat) → Except String (List ForecastRow)) :
    Except PredError (List ForecastRow) :=
  match collab closes with
  | .error e => .error (PredError.rawException e)
  | .ok forecast => .ok (forecast.drop (forecast.length - horizon))

section Theorems

lemma getElem?_map_eq {α β : Type} (f : α → β) (l : List α) (i : Nat) :
    (l.map f).get? i = (l.get? i).map f := by
  simp

lemma range_map_get? {β : Type} (f : Nat → β) (n i : Nat) (hi : i < n) :
    ((List.range n).map f).get? i = some (f i) := by
  simp [List.getElem?_range, hi]

/-- C3: every row of `calculate_pl`'s output has `pl_value = close - open`
exactly, and (when `open ≠ 0`, where the rational division agrees with the
float one) `pl_pct` is `pl_value / open × 100` rounded to 2 decimals; the
output is aligned 1:1 with the input. -/
theorem calculate_pl_row_formulas (rows : List OhlcvRow) (i : Nat)
    (r : OhlcvRow) (hr : rows.get? i = some r) (h0 : r.«open» ≠ 0) :
    (calculate_pl rows).length = rows.length ∧
    ∀ p, (calculate_pl rows).get? i = some p →
      p.pl_value = r.close - r.«open» ∧
      p.pl_pct = round2 ((r.close - r.«open») / r.«open» * 100) := by
  constructor
  · simp [calculate_pl]
  · intro p hp
    rw [calculate_pl] at hp
    rw [getElem?_map_eq, hr] at hp
    simp only [Option.map_some'] at hp
    cases hp
    exact ⟨rfl, rfl⟩

theorem calculate_pl_row_formulas_witness :
    ([({«open» := 2, high := 3, low := 1, close := 3, volume := 5} : OhlcvRow)].get? 0
        = some {«open» := 2, high := 3, low := 1, close := 3, volume := 5}) ∧
    (({«open» := 2, high := 3, low := 1, close := 3, volume := 5} : OhlcvRow).«open» ≠ 0) ∧
    ((calculate_pl [{«open» := 2, high := 3, low := 1, close := 3, volume := 5}]).length = 1 ∧
     ∀ p, (calculate_pl [{«open» := 2, high := 3, low := 1, close := 3, volume := 5}]).get? 0
        = some p →
      p.pl_value = (3 : Rat) - 2 ∧
      p.pl_pct = round2 (((3 : Rat) - 2) / 2 * 100)) :=
  ⟨rfl, by norm_num,
   calculate_pl_row_formulas [{«open» := 2, high := 3, low := 1, close := 3, volume := 5}]
     0 {«open» := 2, high := 3, low := 1, close := 3, volume := 5} rfl (by norm_num)⟩

/-- C5: `sma20` is null for the first 19 rows, and at every row `i ≥ 19`
it is the arithmetic mean of the 20-element window `close[i-19..i]`. -/
theorem sma20_window_mean (closes : List Rat) (i : Nat) (hi : i < closes.length) :
    (i < 19 → (calculate_indicators closes).sma20.get? i = some none) ∧
    (19 ≤ i →
      (calculate_indicators closes).sma20.get? i
        = some (some (((closes.drop (i - 19)).take 20).sum / 20)) ∧
      ((closes.drop (i - 19)).take 20).length = 20) := by
  constructor
  · intro h19
    show (rollingMean 20 closes).get? i = some none
    rw [rollingMean, range_map_get? _ _ _ hi]
    have h : i + 1 < 20 := by omega
    simp [h]
  · intro h19
    have hwin : (closes.take (i + 1)).drop (i + 1 - 20) = (closes.drop (i - 19)).take 20 := by
      have h1 : i + 1 - 20 = i - 19 := by omega
      have h2 : i + 1 - (i - 19) = 20 := by omega
      rw [List.drop_take, h1, h2]
    constructor
    · show (rollingMean 20 closes).get? i = _
      rw [rollingMean, range_map_get? _ _ _ hi]
      have h : ¬ i + 1 < 20 := by omega
      simp only [if_neg h]
      rw [hwin]
      norm_num
    · rw [List.length_take, List.length_drop]
      omega

theorem sma20_window_mean_witness :
    (19 < (List.replicate 20 (1 : Rat)).length) ∧
    ((19 < 19 → (calculate_indicators (List.replicate 20 (1 : Rat))).sma20.get? 19
        = some none) ∧
     (19 ≤ 19 →
      (calculate_indicators (List.replicate 20 (1 : Rat))).sma20.get? 19
        = some (some ((((List.replicate 20 (1 : Rat)).drop (19 - 19)).take 20).sum / 20)) ∧
      (((List.replicate 20 (1 : Rat)).drop (19 - 19)).take 20).length = 20)) :=
  ⟨by decide, sma20_window_mean (List.replicate 20 (1 : Rat)) 19 (by decide)⟩

/-- C9 counterexample: on a 10-row series whose Prophet fit fails,
`predict_prices` surfaces the collaborator's raw exception — there is no
try/except in the source and no `ForecastUnavailable` is produced. -/
theorem predict_prices_raw_exception :
    predict_prices ((List.range 10).map fun i => ((i : Int), (10 : Rat))) 30
        (fun _ => .error "Dataframe has less than 2 non-NaN rows.")
      = .error (PredError.rawException "Dataframe has less than 2 non-NaN rows.") ∧
    (PredError.rawException "Dataframe has less than 2 non-NaN rows.").isUnavailable
      = false :=
  ⟨rfl, rfl⟩

/-- C9 amended: whenever the forecasting collaborator fails,
`predict_prices` propagates the failure as the raw exception and never as
a typed `ForecastUnavailable`. -/
theorem predict_prices_propagates_raw (closes : List (Int × Rat)) (horizon : Nat)
    (collab : List (Int × Rat) → Except String (List ForecastRow)) (msg : String)
    (h : collab closes = .error msg) :
    predict_prices closes horizon collab = .error (PredError.rawException msg) ∧
    ∀ e, predict_prices closes horizon collab
        ≠ .error (PredError.forecastUnavailable e) := by
  rw [predict_prices, h]
  exact ⟨rfl, fun e hc => by cases hc⟩

theorem predict_prices_propagates_raw_witness :
    ((fun _ : List (Int × Rat) => (.error "fit failed" : Except String (List ForecastRow)))
        [((0 : Int), (1 : Rat))] = .error "fit failed") ∧
    (predict_prices [((0 : Int), (1 : Rat))] 30
        (fun _ => .error "fit failed") = .error (PredError.rawException "fit failed") ∧
     ∀ e, predict_prices [((0 : Int), (1 : Rat))] 30
        (fun _ => .error "fit failed") ≠ .error (PredError.forecastUnavailable e)) :=
  ⟨rfl, predict_prices_propagates_raw [((0 : Int), (1 : Rat))] 30
    (fun _ => .error "fit failed") "fit failed" rfl⟩

lemma range_map_getD {β : Type} (f : Nat → β) (d : β) (n i : Nat) (hi : i < n) :
    ((List.range n).map f).getD i d = f i := by
  simp [List.getD, List.getElem?_range, hi]

lemma losses_const15 : lossesOf (List.replicate 15 (10 : Rat)) = List.replicate 15 0 := by
  norm_num [lossesOf, List.range_succ, List.getD, List.replicate]

lemma gains_const15 : gainsOf (List.replicate 15 (10 : Rat)) = List.replicate 15 0 := by
  norm_num [gainsOf, List.range_succ, List.getD, List.replicate]

lemma rolling14_zero15_at13 :
    (rollingMean 14 (List.replicate 15 (0 : Rat))).getD 13 none = some 0 := by
  rw [rollingMean]
  norm_num [List.range_succ, List.getD, List.replicate]

/-- C6 counterexample: on a constant 15-sample close series the trailing
14-sample average loss at row 13 is exactly 0 (the window is full), but
the average gain is also 0, so `rs = 0/0` is NaN and `RSI_14` is NaN —
not the saturated 100 the claim requires. -/
theorem rsi_nan_on_constant_series :
    (rollingMean 14 (lossesOf (List.replicate 15 (10 : Rat)))).getD 13 none
      = some 0 ∧
    (calculate_indicators (List.replicate 15 (10 : Rat))).rsi14.getD 13 PF.nan
      = PF.nan ∧
    PF.nan ≠ PF.num 100 := by
  refine ⟨by rw [losses_const15]; exact rolling14_zero15_at13, ?_, by simp⟩
  show (rsiList (List.replicate 15 (10 : Rat))).getD 13 PF.nan = PF.nan
  rw [rsiList, range_map_getD _ _ _ 13 (by simp)]
  rw [losses_const15, gains_const15, rolling14_zero15_at13]
  norm_num [rsAt, rsiVal]

/-- C6 amended: at every row where the trailing 14-sample average loss is
exactly 0 and the average gain is positive, `RSI_14` is exactly 100,
saturating rather than failing; when both averages are 0 the RSI is NaN. -/
theorem rsi_saturates_at_100 (closes : List Rat) (i : Nat) (g : Rat)
    (hi : i < closes.length)
    (hg : (rollingMean 14 (gainsOf closes)).getD i none = some g)
    (hgpos : 0 < g)
    (hl : (rollingMean 14 (lossesOf closes)).getD i none = some 0) :
    (calculate_indicators closes).rsi14.get? i = some (PF.num 100) := by
  show (rsiList closes).get? i = _
  rw [rsiList, range_map_get? _ _ _ hi, hg, hl]
  rw [rsAt]
  simp only [ne_eq, not_true_eq_false, if_false, if_pos hgpos]
  rfl

lemma gains_ramp15 :
    gainsOf ([0, 1, 2, 3, 4, 5, 6, 7, 8, 9, 10, 11, 12, 13, 14] : List Rat)
      = 0 :: List.replicate 14 1 := by
  norm_num [gainsOf, List.range_succ, List.getD, List.replicate]

lemma losses_ramp15 :
    lossesOf ([0, 1, 2, 3, 4, 5, 6, 7, 8, 9, 10, 11, 12, 13, 14] : List Rat)
      = List.replicate 15 0 := by
  norm_num [lossesOf, List.range_succ, List.getD, List.replicate]

lemma gains_ramp15_rolling :
    (rollingMean 14 (gainsOf ([0, 1, 2, 3, 4, 5, 6, 7, 8, 9, 10, 11, 12, 13, 14] : List Rat))).getD 13 none
      = some (13 / 14) := by
  rw [gains_ramp15, rollingMean]
  norm_num [List.range_succ, List.getD, List.replicate]

lemma losses_ramp15_rolling :
    (rollingMean 14 (lossesOf ([0, 1, 2, 3, 4, 5, 6, 7, 8, 9, 10, 11, 12, 13, 14] : List Rat))).getD 13 none
      = some 0 := by
  rw [losses_ramp15]
  exact rolling14_zero15_at13

theorem rsi_saturates_at_100_witness :
    (13 < ([0, 1, 2, 3, 4, 5, 6, 7, 8, 9, 10, 11, 12, 13, 14] : List Rat).length) ∧
    ((rollingMean 14 (gainsOf ([0, 1, 2, 3, 4, 5, 6, 7, 8, 9, 10, 11, 12, 13, 14] : List Rat))).getD 13 none
      = some (13 / 14)) ∧
    ((0 : Rat) < 13 / 14) ∧
    ((rollingMean 14 (lossesOf ([0, 1, 2, 3, 4, 5, 6, 7, 8, 9, 10, 11, 12, 13, 14] : List Rat))).getD 13 none
      = some 0) ∧
    (calculate_indicators ([0, 1, 2, 3, 4, 5, 6, 7, 8, 9, 10, 11, 12, 13, 14] : List Rat)).rsi14.get? 13
      = some (PF.num 100) :=
  ⟨by simp, gains_ramp15_rolling, by norm_num, losses_ramp15_rolling,
   rsi_saturates_at_100 [0, 1, 2, 3, 4, 5, 6, 7, 8, 9, 10, 11, 12, 13, 14] 13 (13 / 14)
     (by simp) gains_ramp15_rolling (by norm_num) losses_ramp15_rolling⟩

lemma loadLoop_all_error (step : Nat → Except LoadError Table)
    (symbol period : String) (retries delay : Nat) (e : Nat → LoadError)
    (hstep : ∀ a, step a = .error (e a)) (n a : Nat) (hn : 1 ≤ n)
    (ha : a + n = retries + 1) :
    loadLoop step symbol period retries delay (List.range' a n)
      = ((List.range' a (n - 1)).map (fun j => delay * 2 ^ (j - 1)),
         .error (LoadError.afterRetries symbol period retries (e retries))) := by
  induction n generalizing a with
  | zero => omega
  | succ m ih =>
    simp only [List.range', loadLoop, hstep a]
    rcases Nat.eq_zero_or_pos m with h0 | hm
    · subst h0
      have haa : a = retries := by omega
      simp [haa, List.range']
    · have hne : a ≠ retries := by omega
      rw [if_neg hne, ih (a + 1) (by omega) (by omega)]
      rw [show m + 1 - 1 = (m - 1) + 1 from by omega]
      simp only [List.range', List.map_cons]

lemma loadLoop_fail_then_ok (step : Nat → Except LoadError Table)
    (symbol period : String) (retries delay : Nat) (e : Nat → LoadError) (t : Table)
    (k n a : Nat)
    (hfail : ∀ j, j < k → step (a + j) = .error (e j))
    (hok : step (a + k) = .ok t)
    (hk : a + k ≤ retries) (hkn : k < n) :
    loadLoop step symbol period retries delay (List.range' a n)
      = ((List.range' a k).map (fun j => delay * 2 ^ (j - 1)), .ok t) := by
  induction k generalizing a n e with
  | zero =>
    cases n with
    | zero => omega
    | succ m =>
      simp only [List.range', loadLoop]
      rw [show a + 0 = a from rfl] at hok
      simp [hok, List.range']
  | succ kk ih =>
    cases n with
    | zero => omega
    | succ m =>
      have h0 : step a = .error (e 0) := by
        have := hfail 0 (by omega)
        simpa using this
      simp only [List.range', loadLoop, h0]
      have hne : a ≠ retries := by omega
      rw [if_neg hne]
      have hfail' : ∀ j, j < kk → step (a + 1 + j) = .error (e (j + 1)) := by
        intro j hj
        have := hfail (j + 1) (by omega)
        rwa [show a + (j + 1) = a + 1 + j from by omega] at this
      have hok' : step (a + 1 + kk) = .ok t := by
        rwa [show a + (kk + 1) = a + 1 + kk from by omega] at hok
      rw [ih (fun j => e (j + 1)) m (a + 1) hfail' hok' (by omega) (by omega)]
      rfl

lemma range'_one_pow_delays (delay k : Nat) :
    (List.range' 1 k).map (fun j => delay * 2 ^ (j - 1))
      = (List.range k).map (fun i => delay * 2 ^ i) := by
  rw [List.range'_eq_map_range 1 k, List.map_map]
  exact List.map_congr_left fun x _ => by
    simp only [Function.comp_apply]
    congr 2
    omega

/-- C10: for a Custom period whose dates fail either validation check —
`start_date ≥ end_date`, or `start_date < end_date` with `end_date` in
the future — the validation `ValueError` is raised inside the retry
loop's `try` and is caught by the same generic handler as transient
network errors: the fetcher runs all `retries` attempts, sleeping the
full exponential backoff delays between them, and finally raises the
generic retries-exhausted failure wrapping the respective validation
error (`invalidStartEnd` when `end_date ≤ start_date`, else `futureEnd`)
— it never fails fast with a dedicated range error. -/
theorem custom_invalid_dates_retried (symbol : String) (sd ed now : Int)
    (hbad : ed ≤ sd ∨ (sd < ed ∧ now < ed))
    (oracle : Nat → FetchOutcome) (maxO : FetchOutcome)
    (retries delay : Nat) (hr : 1 ≤ retries) :
    load_yfinance_data symbol "Custom" sd ed now oracle maxO retries delay
      = ((List.range (retries - 1)).map (fun i => delay * 2 ^ i),
         .error (LoadError.afterRetries symbol "Custom" retries
                   (if ed ≤ sd then LoadError.invalidStartEnd
                    else LoadError.futureEnd))) := by
  rcases hbad with h | ⟨h1, h2⟩
  · rw [load_yfinance_data,
      loadLoop_all_error _ _ _ _ _ (fun _ => LoadError.invalidStartEnd)
        (fun a => by simp [loadStep, h]) retries 1 hr (by omega),
      range'_one_pow_delays, if_pos h]
  · have hn : ¬ ed ≤ sd := by omega
    rw [load_yfinance_data,
      loadLoop_all_error _ _ _ _ _ (fun _ => LoadError.futureEnd)
        (fun a => by simp [loadStep, hn, h2]) retries 1 hr (by omega),
      range'_one_pow_delays, if_neg hn]

theorem custom_invalid_dates_retried_witness :
    ((3 : Int) ≤ 5 ∨ ((5 : Int) < 3 ∧ (10 : Int) < 3)) ∧
    (((7 : Int) ≤ 0 ∨ ((0 : Int) < 7 ∧ (5 : Int) < 7))) ∧
    (1 ≤ 3) ∧
    (load_yfinance_data "AAPL" "Custom" 5 3 10 (fun _ => .returns emptyDF)
        (.returns emptyDF) 3 2
      = ((List.range 2).map (fun i => 2 * 2 ^ i),
         .error (LoadError.afterRetries "AAPL" "Custom" 3
                   LoadError.invalidStartEnd))) ∧
    (load_yfinance_data "AAPL" "Custom" 0 7 5 (fun _ => .returns emptyDF)
        (.returns emptyDF) 3 2
      = ((List.range 2).map (fun i => 2 * 2 ^ i),
         .error (LoadError.afterRetries "AAPL" "Custom" 3
                   LoadError.futureEnd))) :=
  ⟨Or.inl (by norm_num), Or.inr (by norm_num), by norm_num,
   by
     have h := custom_invalid_dates_retried "AAPL" 5 3 10
       (Or.inl (by norm_num)) (fun _ => .returns emptyDF) (.returns emptyDF)
       3 2 (by norm_num)
     rwa [if_pos (by norm_num : (3 : Int) ≤ 5)] at h,
   by
     have h := custom_invalid_dates_retried "AAPL" 0 7 5
       (Or.inr (by norm_num)) (fun _ => .returns emptyDF) (.returns emptyDF)
       3 2 (by norm_num)
     rwa [if_neg (by norm_num : ¬ (7 : Int) ≤ 0)] at h⟩

/-- C1: when the provider raises transiently on attempts `1..k` with
`k < retries` and returns a non-empty table `t` on attempt `k+1`,
`load_yfinance_data` sleeps exactly `k` backoff delays — the i-th
(1-indexed) equal to `delay * 2^(i-1)` — and returns the normalized
successful table, identical to what a failure-free run on `t` returns:
the result is unmodified by the earlier failures. -/
theorem retry_backoff_count (symbol : String) (sd ed now : Int)
    (oracle : Nat → FetchOutcome) (maxO : FetchOutcome)
    (retries delay k : Nat) (hk : k < retries)
    (msgs : Nat → String) (t : Table) (ht : t.rows.isEmpty = false)
    (hfail : ∀ j, 1 ≤ j → j ≤ k → oracle j = .raises (msgs j))
    (hsucc : oracle (k + 1) = .returns t) :
    load_yfinance_data symbol "1M" sd ed now oracle maxO retries delay
      = ((List.range k).map (fun i => delay * 2 ^ i), .ok (selectLower t)) ∧
    (load_yfinance_data symbol "1M" sd ed now (fun _ => .returns t) maxO
        retries delay)
      = ([], .ok (selectLower t)) := by
  have hstep : ∀ (o : Nat → FetchOutcome) (a : Nat), o a = .returns t →
      loadStep symbol "1M" sd ed now o maxO a = .ok (selectLower t) := by
    intro o a hoa
    simp [loadStep, loaderPeriodKeys, hoa, ht]
  constructor
  · rw [load_yfinance_data]
    rw [loadLoop_fail_then_ok _ _ _ _ _
        (fun j => LoadError.network (msgs (j + 1))) (selectLower t) k retries 1
        (fun j hj => by
          have ho := hfail (j + 1) (by omega) (by omega)
          rw [show (1 : Nat) + j = j + 1 from by omega]
          simp [loadStep, loaderPeriodKeys, ho])
        (by
          rw [show (1 : Nat) + k = k + 1 from by omega]
          exact hstep oracle (k + 1) hsucc)
        (by omega) hk]
    rw [range'_one_pow_delays]
  · rw [load_yfinance_data]
    rw [loadLoop_fail_then_ok _ _ _ _ _ (fun _ => LoadError.invalidStartEnd)
        (selectLower t) 0 retries 1 (fun j hj => by omega)
        (hstep _ _ rfl) (by omega) (by omega)]
    rfl

theorem retry_backoff_count_witness :
    (1 < 3) ∧
    (({ tz := false, cols := ["Open"], rows := [(0, [1])] } : Table).rows.isEmpty
      = false) ∧
    (load_yfinance_data "AAPL" "1M" 0 1 10
        (fun a => if a = 1 then .raises "timeout"
                  else .returns { tz := false, cols := ["Open"], rows := [(0, [1])] })
        (.returns emptyDF) 3 2
      = ((List.range 1).map (fun i => 2 * 2 ^ i),
         .ok (selectLower { tz := false, cols := ["Open"], rows := [(0, [1])] })) ∧
     load_yfinance_data "AAPL" "1M" 0 1 10
        (fun _ => .returns { tz := false, cols := ["Open"], rows := [(0, [1])] })
        (.returns emptyDF) 3 2
      = ([], .ok (selectLower { tz := false, cols := ["Open"], rows := [(0, [1])] }))) :=
  ⟨by norm_num, rfl,
   retry_backoff_count "AAPL" 0 1 10
     (fun a => if a = 1 then .raises "timeout"
               else .returns { tz := false, cols := ["Open"], rows := [(0, [1])] })
     (.returns emptyDF) 3 2 1 (by norm_num) (fun _ => "timeout")
     { tz := false, cols := ["Open"], rows := [(0, [1])] } rfl
     (fun j h1 h2 => by
       have hj : j = 1 := by omega
       subst hj
       rfl)
     rfl⟩

/-- C8 counterexample: with every download attempt and both fallback
degradation steps returning empty data, `fetch_yfinance_data` from
`utils/yfetch.py` (defaults `retries=5`, `delay=3`) returns an empty
table with no error raised — it does not fail with a typed `NoDataFound`
carrying the symbol, period and available range. -/
theorem yfetch_exhausted_returns_empty :
    fetch_yfinance_data "5D" (fun _ => .returns emptyDF) (fun _ => .returns emptyDF)
        (fun _ => .returns emptyDF) 5 3
      = ([], emptyDF) := by
  rfl

lemma yfetchAttempt_all_empty (period : String) (t1 t2 t3 : Table)
    (he1 : t1.rows.isEmpty = true) (he2 : t2.rows.isEmpty = true)
    (he3 : t3.rows.isEmpty = true) :
    yfetchAttempt period (.returns t1) (.returns t2) (.returns t3) = .ok emptyDF := by
  by_cases hp : period ∈ yfetchShortPeriods <;>
    simp [yfetchAttempt, he1, he2, he3, hp]

lemma emptyDataError_always_generic (symbol period : String) (mo : FetchOutcome) :
    emptyDataError symbol period mo = LoadError.noData symbol period := by
  cases mo with
  | raises m => rfl
  | returns mt =>
      rw [emptyDataError]
      split <;> rfl

/-- C8 amended: when every fetch attempt and every fallback yields empty
data, neither fetcher produces an error carrying the available date range.
`fetch_yfinance_data` (`utils/yfetch.py`) shows a UI error and RETURNS an
empty table silently; `load_yfinance_data` (`utils/data_loader.py`)
retries and finally raises the generic retries-exhausted `ValueError`
wrapping the generic "No data found" message, which carries the symbol
and period but never the available date range — the informative
range-carrying error is swallowed by its own `except` block
(`emptyDataError` is constantly generic, for every `max` probe outcome). -/
theorem exhausted_fetch_no_range (symbol period : String) (retries delay : Nat)
    (hr : 1 ≤ retries)
    (main fb1y fb1mo : Nat → FetchOutcome) (t1 t2 t3 : Table)
    (h1 : main 1 = .returns t1) (he1 : t1.rows.isEmpty = true)
    (h2 : fb1y 1 = .returns t2) (he2 : t2.rows.isEmpty = true)
    (h3 : fb1mo 1 = .returns t3) (he3 : t3.rows.isEmpty = true)
    (sd ed now : Int) (oracle : Nat → FetchOutcome) (ot : Nat → Table)
    (ho : ∀ a, oracle a = .returns (ot a))
    (hoe : ∀ a, (ot a).rows.isEmpty = true) (maxO : FetchOutcome) :
    fetch_yfinance_data period main fb1y fb1mo retries delay = ([], emptyDF) ∧
    (∀ mo : FetchOutcome, emptyDataError symbol "1M" mo
        = LoadError.noData symbol "1M") ∧
    load_yfinance_data symbol "1M" sd ed now oracle maxO retries delay
      = ((List.range (retries - 1)).map (fun i => delay * 2 ^ i),
         .error (LoadError.afterRetries symbol "1M" retries
                   (LoadError.noData symbol "1M"))) := by
  refine ⟨?_, fun mo => emptyDataError_always_generic symbol "1M" mo, ?_⟩
  · rw [fetch_yfinance_data]
    cases retries with
    | zero => omega
    | succ r =>
        simp only [List.range', yfetchLoop,
          h1, h2, h3, yfetchAttempt_all_empty period t1 t2 t3 he1 he2 he3]
  · rw [load_yfinance_data]
    rw [loadLoop_all_error _ _ _ _ _ (fun _ => LoadError.noData symbol "1M")
        (fun a => by
          simp [loadStep, loaderPeriodKeys, ho a, hoe a,
            emptyDataError_always_generic])
        retries 1 hr (by omega)]
    rw [range'_one_pow_delays]

theorem exhausted_fetch_no_range_witness :
    (1 ≤ 3) ∧
    ((fun _ : Nat => (FetchOutcome.returns emptyDF)) 1 = .returns emptyDF) ∧
    (emptyDF.rows.isEmpty = true) ∧
    (fetch_yfinance_data "5D" (fun _ => .returns emptyDF) (fun _ => .returns emptyDF)
        (fun _ => .returns emptyDF) 3 2 = ([], emptyDF) ∧
     (∀ mo : FetchOutcome, emptyDataError "CING" "1M" mo
        = LoadError.noData "CING" "1M") ∧
     load_yfinance_data "CING" "1M" 0 1 2 (fun _ => .returns emptyDF)
        (.returns { tz := false, cols := ["Open"], rows := [(0, [1])] }) 3 2
      = ((List.range 2).map (fun i => 2 * 2 ^ i),
         .error (LoadError.afterRetries "CING" "1M" 3
                   (LoadError.noData "CING" "1M")))) :=
  ⟨by norm_num, rfl, rfl,
   exhausted_fetch_no_range "CING" "5D" 3 2 (by norm_num)
     (fun _ => .returns emptyDF) (fun _ => .returns emptyDF) (fun _ => .returns emptyDF)
     emptyDF emptyDF emptyDF rfl rfl rfl rfl rfl rfl
     0 1 2 (fun _ => .returns emptyDF) (fun _ => emptyDF)
     (fun _ => rfl) (fun _ => rfl)
     (.returns { tz := false, cols := ["Open"], rows := [(0, [1])] })⟩

instance : IsTotal (Int × List Rat) (fun a b => a.1 ≤ b.1) :=
  ⟨fun a b => Int.le_total a.1 b.1⟩

instance : IsTrans (Int × List Rat) (fun a b => a.1 ≤ b.1) :=
  ⟨fun _ _ _ h1 h2 => le_trans h1 h2⟩

lemma isMonotonic_pairwise :
    ∀ (l : List Int), isMonotonicIncreasing l = true → l.Pairwise (· ≤ ·)
  | [], _ => List.Pairwise.nil
  | [_], _ => by simp
  | a :: b :: rest, h => by
      rw [isMonotonicIncreasing] at h
      simp only [Bool.and_eq_true, decide_eq_true_eq] at h
      have tail := isMonotonic_pairwise (b :: rest) h.2
      refine List.Pairwise.cons ?_ tail
      intro x hx
      rcases List.mem_cons.mp hx with rfl | hx'
      · exact h.1
      · exact le_trans h.1 (List.rel_of_pairwise_cons tail hx')

lemma dedupFirstAux_subset (rows : List (Int × List Rat)) :
    ∀ (seen : List Int), ∀ r ∈ dedupFirstAux seen rows, r ∈ rows := by
  induction rows with
  | nil => intro seen r hr; simp [dedupFirstAux] at hr
  | cons x rest ih =>
      intro seen r hr
      rw [dedupFirstAux] at hr
      by_cases hmem : x.1 ∈ seen
      · rw [if_pos hmem] at hr
        exact List.mem_cons_of_mem x (ih seen r hr)
      · rw [if_neg hmem] at hr
        rcases List.mem_cons.mp hr with rfl | hr'
        · exact List.mem_cons_self _ _
        · exact List.mem_cons_of_mem x (ih (x.1 :: seen) r hr')

lemma dedupFirstAux_strict (rows : List (Int × List Rat)) :
    ∀ (seen : List Int), (rows.map Prod.fst).Pairwise (· ≤ ·) →
      ((dedupFirstAux seen rows).map Prod.fst).Pairwise (· < ·) ∧
      ∀ d ∈ (dedupFirstAux seen rows).map Prod.fst, d ∉ seen := by
  induction rows with
  | nil => intro seen _; simp [dedupFirstAux]
  | cons r rest ih =>
      intro seen hs
      rw [List.map_cons, List.pairwise_cons] at hs
      obtain ⟨hhead, htail⟩ := hs
      rw [dedupFirstAux]
      by_cases hmem : r.1 ∈ seen
      · rw [if_pos hmem]
        exact ih seen htail
      · rw [if_neg hmem]
        obtain ⟨tp, tn⟩ := ih (r.1 :: seen) htail
        constructor
        · rw [List.map_cons, List.pairwise_cons]
          refine ⟨?_, tp⟩
          intro d hd
          have hdrest : d ∈ rest.map Prod.fst := by
            obtain ⟨x, hx, rfl⟩ := List.mem_map.mp hd
            exact List.mem_map_of_mem _ (dedupFirstAux_subset rest (r.1 :: seen) x hx)
          have hle : r.1 ≤ d := hhead d hdrest
          have hne : d ≠ r.1 := fun hEq =>
            (tn d hd) (hEq ▸ List.mem_cons_self r.1 seen)
          omega
        · intro d hd
          rw [List.map_cons] at hd
          rcases List.mem_cons.mp hd with rfl | hd'
          · exact hmem
          · exact fun hin => (tn d hd') (List.mem_cons_of_mem _ hin)

/-- C2 counterexample: the uploaded-file path accepts this table — all
five OHLCV columns are present case-insensitively and it is non-empty —
and returns it UNCHANGED: the columns are not lower-cased, the date index
is not strictly increasing, and the timezone flag is still set. -/
def fileTable : Table :=
  { tz := true
    cols := ["Open", "High", "Low", "Close", "Volume"]
    rows := [(2, [1, 1, 1, 1, 1]), (1, [2, 2, 2, 2, 2])] }

theorem load_file_not_normalized :
    load_file_data fileTable = .ok fileTable ∧
    fileTable.cols ≠ ["open", "high", "low", "close", "volume"] ∧
    ¬ List.Pairwise (· < ·) fileTable.dates ∧
    fileTable.tz = true := by
  refine ⟨?_, by decide, by decide, rfl⟩
  have hmap : fileTable.cols.map pyLower = ["open", "high", "low", "close", "volume"] := by
    decide
  rw [load_file_data, hmap]
  simp [fileTable]

/-- C2 amended: the network-path Schema Normalizer (the normalization
block of `utils/yfetch.py`) does establish the invariant: whenever the
five required columns are present in the input, its output has a strictly
increasing (hence duplicate-free), timezone-naive date index and exactly
the five lower-cased required columns. The uploaded-file path only
validates and returns its input unchanged, so the invariant holds only
for the network path. -/
theorem normalizeY_canonical (t : Table)
    (hc : ∀ c ∈ requiredColumns, c ∈ t.cols) :
    (normalizeY t).cols = ["open", "high", "low", "close", "volume"] ∧
    List.Pairwise (· < ·) (normalizeY t).dates ∧
    (normalizeY t).tz = false := by
  rw [normalizeY]
  set t1 := if isMonotonicIncreasing t.dates then t
            else { t with rows := t.rows.insertionSort (fun a b => a.1 ≤ b.1) } with ht1
  have hcols1 : t1.cols = t.cols := by
    rw [ht1]; split <;> rfl
  have hsorted : (t1.rows.map Prod.fst).Pairwise (· ≤ ·) := by
    rw [ht1]
    split
    · next hmono => exact isMonotonic_pairwise _ hmono
    · next =>
        have hs := List.sorted_insertionSort
          (fun (a b : Int × List Rat) => a.1 ≤ b.1) t.rows
        rw [List.pairwise_map]
        exact hs
  refine ⟨?_, ?_, rfl⟩
  · show (requiredColumns.filter (fun c => decide (c ∈ t1.cols))).map pyLower = _
    rw [hcols1]
    rw [List.filter_eq_self.mpr (fun a ha => by simpa using hc a ha)]
    decide
  · show ((dedupFirst t1.rows).map
        (fun r => (r.1, _))).map Prod.fst |>.Pairwise (· < ·)
    rw [List.map_map]
    exact (dedupFirstAux_strict t1.rows [] hsorted).1

theorem normalizeY_canonical_witness :
    (∀ c ∈ requiredColumns,
      c ∈ ({ tz := true
             cols := ["Open", "High", "Low", "Close", "Volume", "Dividends"]
             rows := [(5, [1, 1, 1, 1, 1, 0]), (3, [2, 2, 2, 2, 2, 0]),
                      (3, [4, 4, 4, 4, 4, 0])] } : Table).cols) ∧
    ((normalizeY { tz := true
                   cols := ["Open", "High", "Low", "Close", "Volume", "Dividends"]
                   rows := [(5, [1, 1, 1, 1, 1, 0]), (3, [2, 2, 2, 2, 2, 0]),
                            (3, [4, 4, 4, 4, 4, 0])] }).cols
        = ["open", "high", "low", "close", "volume"] ∧
     List.Pairwise (· < ·)
       (normalizeY { tz := true
                     cols := ["Open", "High", "Low", "Close", "Volume", "Dividends"]
                     rows := [(5, [1, 1, 1, 1, 1, 0]), (3, [2, 2, 2, 2, 2, 0]),
                              (3, [4, 4, 4, 4, 4, 0])] }).dates ∧
     (normalizeY { tz := true
                   cols := ["Open", "High", "Low", "Close", "Volume", "Dividends"]
                   rows := [(5, [1, 1, 1, 1, 1, 0]), (3, [2, 2, 2, 2, 2, 0]),
                            (3, [4, 4, 4, 4, 4, 0])] }).tz = false) :=
  ⟨by decide,
   normalizeY_canonical
     { tz := true
       cols := ["Open", "High", "Low", "Close", "Volume", "Dividends"]
       rows := [(5, [1, 1, 1, 1, 1, 0]), (3, [2, 2, 2, 2, 2, 0]),
                (3, [4, 4, 4, 4, 4, 0])] }
     (by decide)⟩

lemma abs_div_sqrt_gt_two (a v : Rat) (hv : 0 < v) :
    2 < |(a : ℝ)| / Real.sqrt ((v : Rat) : ℝ) ↔ 4 * v < a ^ 2 := by
  have hv' : (0 : ℝ) < ((v : Rat) : ℝ) := by exact_mod_cast hv
  have hs : 0 < Real.sqrt ((v : Rat) : ℝ) := Real.sqrt_pos.mpr hv'
  have hsq : Real.sqrt ((v : Rat) : ℝ) ^ 2 = ((v : Rat) : ℝ) := Real.sq_sqrt hv'.le
  have hss : Real.sqrt ((v : Rat) : ℝ) * Real.sqrt ((v : Rat) : ℝ) = ((v : Rat) : ℝ) :=
    Real.mul_self_sqrt hv'.le
  have e1 : (2 * Real.sqrt ((v : Rat) : ℝ)) * (2 * Real.sqrt ((v : Rat) : ℝ))
      = 4 * ((v : Rat) : ℝ) := by
    linear_combination 4 * hss
  have e2 : |((a : Rat) : ℝ)| * |((a : Rat) : ℝ)| = ((a : Rat) : ℝ) ^ 2 := by
    rw [← sq_abs]; ring
  rw [lt_div_iff₀ hs]
  constructor
  · intro h
    have key := mul_self_lt_mul_self (by positivity) h
    have : (4 * ((v : Rat) : ℝ)) < ((a : Rat) : ℝ) ^ 2 := by linarith [key, e1, e2]
    have hcast : ((4 * v : Rat) : ℝ) < ((a ^ 2 : Rat) : ℝ) := by push_cast; linarith
    exact_mod_cast hcast
  · intro h
    have hr : ((4 * v : Rat) : ℝ) < ((a ^ 2 : Rat) : ℝ) := by exact_mod_cast h
    rw [show ((4 * v : Rat) : ℝ) = 4 * ((v : Rat) : ℝ) from by push_cast; ring,
      show ((a ^ 2 : Rat) : ℝ) = ((a : Rat) : ℝ) ^ 2 from by push_cast; ring] at hr
    by_contra hle
    push_neg at hle
    have key := mul_self_le_mul_self (abs_nonneg _) hle
    linarith [key, e1, e2]

lemma absZGtTwo_iff_real (xs : List Rat) (x : Rat) (hv : 0 < sampleVar xs) :
    absZGtTwo xs x = true ↔
      2 < |((x - listMean xs : Rat) : ℝ)| / Real.sqrt ((sampleVar xs : Rat) : ℝ) := by
  rw [absZGtTwo, decide_eq_true_iff,
    abs_div_sqrt_gt_two (x - listMean xs) (sampleVar xs) hv]
  exact ⟨fun h => h.2, fun h => ⟨hv, h⟩⟩

/-- C4: on every row of `calculate_pl`'s output, the anomaly flag is true
exactly when `|z_pl| > 2` or `|z_volume| > 2`, where the z-scores are
taken against the mean and sample standard deviation (`√variance`) of the
whole `% P/L` and `volume` series themselves. Stated for series of
positive sample variance; with zero or undefined variance the float
z-scores are NaN and the flag is false. -/
theorem anomaly_iff_zscores (rows : List OhlcvRow) (i : Nat) (r : OhlcvRow)
    (hr : rows.get? i = some r)
    (hv1 : 0 < sampleVar (plPctSeries rows))
    (hv2 : 0 < sampleVar (volumeSeries rows)) :
    ∀ p, (calculate_pl rows).get? i = some p →
      (p.anomaly = true ↔
        2 < |((p.pl_pct - listMean (plPctSeries rows) : Rat) : ℝ)|
              / Real.sqrt ((sampleVar (plPctSeries rows) : Rat) : ℝ) ∨
        2 < |((p.volume - listMean (volumeSeries rows) : Rat) : ℝ)|
              / Real.sqrt ((sampleVar (volumeSeries rows) : Rat) : ℝ)) := by
  intro p hp
  rw [calculate_pl] at hp
  rw [getElem?_map_eq, hr] at hp
  simp only [Option.map_some'] at hp
  cases hp
  rw [Bool.or_eq_true,
    absZGtTwo_iff_real (plPctSeries rows) _ hv1,
    absZGtTwo_iff_real (volumeSeries rows) _ hv2]

lemma c4_plpcts :
    plPctSeries [⟨1, 1, 1, 1, 0⟩, ⟨1, 2, 2, 2, 0⟩, ⟨1, 1, 1, 1, 100⟩]
      = [0, 100, 0] := by
  norm_num [plPctSeries, round2, roundHalfEven]

lemma c4_vols :
    volumeSeries [⟨1, 1, 1, 1, 0⟩, ⟨1, 2, 2, 2, 0⟩, ⟨1, 1, 1, 1, 100⟩]
      = [0, 0, 100] := by
  norm_num [volumeSeries]

lemma c4_var1 :
    0 < sampleVar (plPctSeries [⟨1, 1, 1, 1, 0⟩, ⟨1, 2, 2, 2, 0⟩, ⟨1, 1, 1, 1, 100⟩]) := by
  rw [c4_plpcts]
  norm_num [sampleVar, listMean, List.sum_cons]

lemma c4_var2 :
    0 < sampleVar (volumeSeries [⟨1, 1, 1, 1, 0⟩, ⟨1, 2, 2, 2, 0⟩, ⟨1, 1, 1, 1, 100⟩]) := by
  rw [c4_vols]
  norm_num [sampleVar, listMean, List.sum_cons]

theorem anomaly_iff_zscores_witness :
    (([⟨1, 1, 1, 1, 0⟩, ⟨1, 2, 2, 2, 0⟩, ⟨1, 1, 1, 1, 100⟩] : List OhlcvRow).get? 0
        = some ⟨1, 1, 1, 1, 0⟩) ∧
    (0 < sampleVar (plPctSeries [⟨1, 1, 1, 1, 0⟩, ⟨1, 2, 2, 2, 0⟩, ⟨1, 1, 1, 1, 100⟩])) ∧
    (0 < sampleVar (volumeSeries [⟨1, 1, 1, 1, 0⟩, ⟨1, 2, 2, 2, 0⟩, ⟨1, 1, 1, 1, 100⟩])) ∧
    (∀ p, (calculate_pl [⟨1, 1, 1, 1, 0⟩, ⟨1, 2, 2, 2, 0⟩, ⟨1, 1, 1, 1, 100⟩]).get? 0
        = some p →
      (p.anomaly = true ↔
        2 < |((p.pl_pct - listMean (plPctSeries
                  [⟨1, 1, 1, 1, 0⟩, ⟨1, 2, 2, 2, 0⟩, ⟨1, 1, 1, 1, 100⟩]) : Rat) : ℝ)|
              / Real.sqrt ((sampleVar (plPctSeries
                  [⟨1, 1, 1, 1, 0⟩, ⟨1, 2, 2, 2, 0⟩, ⟨1, 1, 1, 1, 100⟩]) : Rat) : ℝ) ∨
        2 < |((p.volume - listMean (volumeSeries
                  [⟨1, 1, 1, 1, 0⟩, ⟨1, 2, 2, 2, 0⟩, ⟨1, 1, 1, 1, 100⟩]) : Rat) : ℝ)|
              / Real.sqrt ((sampleVar (volumeSeries
                  [⟨1, 1, 1, 1, 0⟩, ⟨1, 2, 2, 2, 0⟩, ⟨1, 1, 1, 1, 100⟩]) : Rat) : ℝ))) :=
  ⟨rfl, c4_var1, c4_var2,
   anomaly_iff_zscores [⟨1, 1, 1, 1, 0⟩, ⟨1, 2, 2, 2, 0⟩, ⟨1, 1, 1, 1, 100⟩] 0
     ⟨1, 1, 1, 1, 0⟩ rfl c4_var1 c4_var2⟩

lemma rollingMean_getD_some (w : Nat) (xs : List Rat) (i : Nat) (s : Rat)
    (hs : (rollingMean w xs).getD i none = some s) :
    i < xs.length ∧ ¬ i + 1 < w ∧
      s = ((xs.take (i + 1)).drop (i + 1 - w)).sum / (w : Rat) := by
  by_cases hi : i < xs.length
  · rw [rollingMean, range_map_getD _ _ _ _ hi] at hs
    by_cases hw : i + 1 < w
    · rw [if_pos hw] at hs
      cases hs
    · rw [if_neg hw] at hs
      injection hs with hs
      exact ⟨hi, hw, hs.symm⟩
  · rw [rollingMean, List.getD_eq_default] at hs
    · cases hs
    · simpa using Nat.le_of_not_lt hi

lemma sma_nonneg_of_closes (closes : List Rat) (h0 : ∀ c ∈ closes, 0 ≤ c)
    (i : Nat) (s : Rat)
    (hs : (rollingMean 20 closes).getD i none = some s) : 0 ≤ s := by
  obtain ⟨hi, hw, rfl⟩ := rollingMean_getD_some 20 closes i s hs
  apply div_nonneg _ (by norm_num)
  apply List.sum_nonneg
  intro x hx
  exact h0 x (List.take_subset _ _ (List.drop_subset _ _ hx))

/-- C7: per row of the Indicator Set, the mean-reversion label is Buy iff
`close < sma20 × 0.95` and Sell iff `close > sma20 × 1.05` (with the Sell
assignment overwriting: disjoint given non-negative closes), a null
`sma20` yields Hold for mean-reversion; the momentum label is Buy iff
`rsi14 < 30` and Sell iff `rsi14 > 70`, a NaN `rsi14` yields Hold; and no
row carries both Buy and Sell for the same strategy. -/
theorem signal_rules (closes : List Rat) (h0 : ∀ c ∈ closes, 0 ≤ c) (i : Nat)
    (row : StratRow)
    (hrow : (apply_strategies closes (calculate_indicators closes)).get? i
      = some row) :
    ((calculate_indicators closes).sma20.getD i none = none →
        row.mean_reversion_signal = Signal.Hold) ∧
    (∀ s, (calculate_indicators closes).sma20.getD i none = some s →
        ((row.mean_reversion_signal = Signal.Buy ↔
            closes.getD i 0 < s * (95 / 100)) ∧
         (row.mean_reversion_signal = Signal.Sell ↔
            s * (105 / 100) < closes.getD i 0))) ∧
    ((calculate_indicators closes).rsi14.getD i PF.nan = PF.nan →
        row.momentum_signal = Signal.Hold) ∧
    (∀ q, (calculate_indicators closes).rsi14.getD i PF.nan = PF.num q →
        ((row.momentum_signal = Signal.Buy ↔ q < 30) ∧
         (row.momentum_signal = Signal.Sell ↔ 70 < q))) ∧
    ¬(row.mean_reversion_signal = Signal.Buy ∧
        row.mean_reversion_signal = Signal.Sell) ∧
    ¬(row.momentum_signal = Signal.Buy ∧ row.momentum_signal = Signal.Sell) := by
  have hi : i < closes.length := by
    have hlen := List.get?_eq_some.mp hrow
    obtain ⟨hl, _⟩ := hlen
    simpa [apply_strategies] using hl
  rw [apply_strategies, range_map_get? _ _ _ hi] at hrow
  injection hrow with hrow
  subst hrow
  refine ⟨?_, ?_, ?_, ?_, ?_, ?_⟩
  · intro hn
    show meanRevSignal _ _ = _
    rw [hn]
    rfl
  · intro s hs
    have hsn : 0 ≤ s := sma_nonneg_of_closes closes h0 i s hs
    show (meanRevSignal (closes.getD i 0) _ = _ ↔ _) ∧
         (meanRevSignal (closes.getD i 0) _ = _ ↔ _)
    rw [hs]
    set c := closes.getD i 0 with hc
    by_cases h1 : s * (105 / 100) < c <;> by_cases h2 : c < s * (95 / 100)
    · exfalso
      linarith
    · simp [meanRevSignal, h1, h2]
    · simp [meanRevSignal, h1, h2]
    · simp [meanRevSignal, h1, h2]
  · intro hn
    show momentumSignal _ = _
    rw [hn]
    rfl
  · intro q hq
    show (momentumSignal _ = _ ↔ _) ∧ (momentumSignal _ = _ ↔ _)
    rw [hq]
    by_cases h1 : (70 : Rat) < q <;> by_cases h2 : q < (30 : Rat)
    · exfalso
      linarith
    · simp [momentumSignal, pfGt, pfLt, h1, h2]
    · simp [momentumSignal, pfGt, pfLt, h1, h2]
    · simp [momentumSignal, pfGt, pfLt, h1, h2]
  · rintro ⟨ha, hb⟩
    rw [ha] at hb
    exact Signal.noConfusion hb
  · rintro ⟨ha, hb⟩
    rw [ha] at hb
    exact Signal.noConfusion hb

theorem signal_rules_witness :
    (∀ c ∈ ([1, 2, 3] : List Rat), 0 ≤ c) ∧
    ((apply_strategies [1, 2, 3] (calculate_indicators [1, 2, 3])).get? 1
        = some ⟨Signal.Hold, Signal.Hold⟩) ∧
    (((calculate_indicators ([1, 2, 3] : List Rat)).sma20.getD 1 none = none →
        (⟨Signal.Hold, Signal.Hold⟩ : StratRow).mean_reversion_signal = Signal.Hold) ∧
     (∀ s, (calculate_indicators ([1, 2, 3] : List Rat)).sma20.getD 1 none = some s →
        (((⟨Signal.Hold, Signal.Hold⟩ : StratRow).mean_reversion_signal = Signal.Buy ↔
            ([1, 2, 3] : List Rat).getD 1 0 < s * (95 / 100)) ∧
         ((⟨Signal.Hold, Signal.Hold⟩ : StratRow).mean_reversion_signal = Signal.Sell ↔
            s * (105 / 100) < ([1, 2, 3] : List Rat).getD 1 0))) ∧
     ((calculate_indicators ([1, 2, 3] : List Rat)).rsi14.getD 1 PF.nan = PF.nan →
        (⟨Signal.Hold, Signal.Hold⟩ : StratRow).momentum_signal = Signal.Hold) ∧
     (∀ q, (calculate_indicators ([1, 2, 3] : List Rat)).rsi14.getD 1 PF.nan = PF.num q →
        (((⟨Signal.Hold, Signal.Hold⟩ : StratRow).momentum_signal = Signal.Buy ↔ q < 30) ∧
         ((⟨Signal.Hold, Signal.Hold⟩ : StratRow).momentum_signal = Signal.Sell ↔ 70 < q))) ∧
     ¬((⟨Signal.Hold, Signal.Hold⟩ : StratRow).mean_reversion_signal = Signal.Buy ∧
        (⟨Signal.Hold, Signal.Hold⟩ : StratRow).mean_reversion_signal = Signal.Sell) ∧
     ¬((⟨Signal.Hold, Signal.Hold⟩ : StratRow).momentum_signal = Signal.Buy ∧
        (⟨Signal.Hold, Signal.Hold⟩ : StratRow).momentum_signal = Signal.Sell)) :=
  ⟨by
    intro c hc
    simp only [List.mem_cons, List.not_mem_nil, or_false] at hc
    rcases hc with rfl | rfl | rfl <;> norm_num,
   rfl,
   signal_rules [1, 2, 3]
     (by
       intro c hc
       simp only [List.mem_cons, List.not_mem_nil, or_false] at hc
       rcases hc with rfl | rfl | rfl <;> norm_num)
     1 ⟨Signal.Hold, Signal.Hold⟩ rfl⟩

end Theorems

end LifeWithAI
